import Mathlib

/-!
Verification of the position-synchronization and autoplay decision core of
a chess automation server. The development embeds, as Lean functions, the
chess rules oracle (the role the chess.js library plays for the server),
the position tracker, the observation reconciler (syncPositionInternal),
the turn-and-safety gates of the autoplay loop, the operator endpoints
(/move, /position, /reset) and the UCI setPosition command builder, and
proves properties of those embeddings. External observations (board
snapshots, extracted move lists, board orientation, engine results,
executor success) are explicit inputs of each operation.
-/


/-!
Chess rules oracle embedding (stand-in for the chess.js library used by the server).
-/

inductive Color where
  | white
  | black
deriving DecidableEq

def Color.other : Color → Color
  | .white => .black
  | .black => .white

inductive PieceKind where
  | pawn
  | knight
  | bishop
  | rook
  | queen
  | king
deriving DecidableEq

structure Piece where
  color : Color
  kind : PieceKind
deriving DecidableEq

abbrev Board := List (Option Piece)

structure CastleRights where
  wk : Bool
  wq : Bool
  bk : Bool
  bq : Bool
deriving DecidableEq

structure Pos where
  board : Board
  turn : Color
  castle : CastleRights
  ep : Option Nat
  halfmove : Nat
  fullmove : Nat
deriving DecidableEq

structure Move where
  fromSq : Nat
  toSq : Nat
  promo : Option PieceKind
deriving DecidableEq

def pieceAt (b : Board) (i : Nat) : Option Piece := (b.getD i none)

def setSq (b : Board) (i : Nat) (v : Option Piece) : Board := b.set i v

def fileOf (i : Nat) : Nat := i % 8

def rankOf (i : Nat) : Nat := i / 8

def inBoard (f r : Int) : Bool := 0 ≤ f && f < 8 && 0 ≤ r && r < 8

def idxOf (f r : Int) : Nat := r.toNat * 8 + f.toNat

/-- Offsets reachable by a knight. -/
def knightDeltas : List (Int × Int) :=
  [(1, 2), (2, 1), (2, -1), (1, -2), (-1, -2), (-2, -1), (-2, 1), (-1, 2)]

def kingDeltas : List (Int × Int) :=
  [(1, 0), (1, 1), (0, 1), (-1, 1), (-1, 0), (-1, -1), (0, -1), (1, -1)]

def rookDirs : List (Int × Int) := [(1, 0), (-1, 0), (0, 1), (0, -1)]

def bishopDirs : List (Int × Int) := [(1, 1), (1, -1), (-1, 1), (-1, -1)]

def queenDirs : List (Int × Int) := rookDirs ++ bishopDirs

/-- Walk along a ray; squares a sliding piece may move to (stopping at the
first occupied square, which is included only when it holds an enemy piece). -/
def slideTargets (b : Board) (c : Color) : Nat → Int → Int → Int → Int → List Nat
  | 0, _, _, _, _ => []
  | fuel + 1, f, r, df, dr =>
    let f2 := f + df
    let r2 := r + dr
    if inBoard f2 r2 then
      let i := idxOf f2 r2
      match pieceAt b i with
      | none => i :: slideTargets b c fuel f2 r2 df dr
      | some p => if p.color = c then [] else [i]
    else []

/-- Walk along a ray; squares a sliding piece attacks (stopping at the first
occupied square, which is always included). -/
def slideAttack (b : Board) : Nat → Int → Int → Int → Int → List Nat
  | 0, _, _, _, _ => []
  | fuel + 1, f, r, df, dr =>
    let f2 := f + df
    let r2 := r + dr
    if inBoard f2 r2 then
      let i := idxOf f2 r2
      match pieceAt b i with
      | none => i :: slideAttack b fuel f2 r2 df dr
      | some _ => [i]
    else []

def stepTargets (deltas : List (Int × Int)) (f r : Int) : List Nat :=
  (deltas.filter (fun d => inBoard (f + d.1) (r + d.2))).map (fun d => idxOf (f + d.1) (r + d.2))

def pawnDir (c : Color) : Int :=
  match c with
  | .white => 1
  | .black => -1

/-- Squares attacked by the piece sitting on square i (captures only, for pawns). -/
def attackSquares (b : Board) (pc : Piece) (i : Nat) : List Nat :=
  let f : Int := fileOf i
  let r : Int := rankOf i
  match pc.kind with
  | .pawn => stepTargets [(-1, pawnDir pc.color), (1, pawnDir pc.color)] f r
  | .knight => stepTargets knightDeltas f r
  | .king => stepTargets kingDeltas f r
  | .rook => rookDirs.flatMap (fun d => slideAttack b 7 f r d.1 d.2)
  | .bishop => bishopDirs.flatMap (fun d => slideAttack b 7 f r d.1 d.2)
  | .queen => queenDirs.flatMap (fun d => slideAttack b 7 f r d.1 d.2)

/-- True when some piece of color c attacks square t. -/
def attacked (b : Board) (c : Color) (t : Nat) : Bool :=
  (List.range 64).any (fun i =>
    match pieceAt b i with
    | some pc => pc.color = c && (attackSquares b pc i).contains t
    | none => false)

def kingSquare (b : Board) (c : Color) : Option Nat :=
  (List.range 64).find? (fun i => pieceAt b i = some ⟨c, .king⟩)

def promoKinds : List PieceKind := [.queen, .rook, .bishop, .knight]

def mkPawnMoves (fromSq toSq : Nat) (toRank : Nat) (c : Color) : List Move :=
  if (c = Color.white && toRank = 7) || (c = Color.black && toRank = 0) then
    promoKinds.map (fun k => ⟨fromSq, toSq, some k⟩)
  else [⟨fromSq, toSq, none⟩]

/-- Pseudo-legal moves of the piece on square i (castling handled separately). -/
def pieceMoves (p : Pos) (i : Nat) : List Move :=
  match pieceAt p.board i with
  | none => []
  | some pc =>
    if pc.color ≠ p.turn then []
    else
      let f : Int := fileOf i
      let r : Int := rankOf i
      match pc.kind with
      | .knight => (stepTargets knightDeltas f r).filterMap (fun t =>
          match pieceAt p.board t with
          | some q => if q.color = pc.color then none else some ⟨i, t, none⟩
          | none => some ⟨i, t, none⟩)
      | .king => (stepTargets kingDeltas f r).filterMap (fun t =>
          match pieceAt p.board t with
          | some q => if q.color = pc.color then none else some ⟨i, t, none⟩
          | none => some ⟨i, t, none⟩)
      | .rook => (rookDirs.flatMap (fun d => slideTargets p.board pc.color 7 f r d.1 d.2)).map
          (fun t => ⟨i, t, none⟩)
      | .bishop => (bishopDirs.flatMap (fun d => slideTargets p.board pc.color 7 f r d.1 d.2)).map
          (fun t => ⟨i, t, none⟩)
      | .queen => (queenDirs.flatMap (fun d => slideTargets p.board pc.color 7 f r d.1 d.2)).map
          (fun t => ⟨i, t, none⟩)
      | .pawn =>
        let dir := pawnDir pc.color
        let startRank : Nat := if pc.color = Color.white then 1 else 6
        let fwd1 :=
          if inBoard f (r + dir) && (pieceAt p.board (idxOf f (r + dir))).isNone then
            mkPawnMoves i (idxOf f (r + dir)) (r + dir).toNat pc.color
          else []
        let fwd2 :=
          if rankOf i = startRank && (pieceAt p.board (idxOf f (r + dir))).isNone &&
              (pieceAt p.board (idxOf f (r + 2 * dir))).isNone then
            [⟨i, idxOf f (r + 2 * dir), none⟩]
          else []
        let caps := [(-1 : Int), 1].flatMap (fun df =>
          if inBoard (f + df) (r + dir) then
            let t := idxOf (f + df) (r + dir)
            match pieceAt p.board t with
            | some q => if q.color = pc.color then [] else mkPawnMoves i t (r + dir).toNat pc.color
            | none => if p.ep = some t then [⟨i, t, none⟩] else []
          else [])
        fwd1 ++ fwd2 ++ caps

/-- Castling moves available to the side to move (destination-square safety is
left to the legality filter; the origin and transit squares are checked here). -/
def castleMoves (p : Pos) : List Move :=
  let enemy := p.turn.other
  match p.turn with
  | .white =>
    let e1ok := pieceAt p.board 4 = some ⟨.white, .king⟩
    let ks :=
      if p.castle.wk && e1ok && pieceAt p.board 7 = some ⟨.white, .rook⟩ &&
          (pieceAt p.board 5).isNone && (pieceAt p.board 6).isNone &&
          !attacked p.board enemy 4 && !attacked p.board enemy 5 then
        [(⟨4, 6, none⟩ : Move)]
      else []
    let qs :=
      if p.castle.wq && e1ok && pieceAt p.board 0 = some ⟨.white, .rook⟩ &&
          (pieceAt p.board 1).isNone && (pieceAt p.board 2).isNone && (pieceAt p.board 3).isNone &&
          !attacked p.board enemy 4 && !attacked p.board enemy 3 then
        [(⟨4, 2, none⟩ : Move)]
      else []
    ks ++ qs
  | .black =>
    let e8ok := pieceAt p.board 60 = some ⟨.black, .king⟩
    let ks :=
      if p.castle.bk && e8ok && pieceAt p.board 63 = some ⟨.black, .rook⟩ &&
          (pieceAt p.board 61).isNone && (pieceAt p.board 62).isNone &&
          !attacked p.board enemy 60 && !attacked p.board enemy 61 then
        [(⟨60, 62, none⟩ : Move)]
      else []
    let qs :=
      if p.castle.bq && e8ok && pieceAt p.board 56 = some ⟨.black, .rook⟩ &&
          (pieceAt p.board 57).isNone && (pieceAt p.board 58).isNone && (pieceAt p.board 59).isNone &&
          !attacked p.board enemy 60 && !attacked p.board enemy 59 then
        [(⟨60, 58, none⟩ : Move)]
      else []
    ks ++ qs

def pseudoMoves (p : Pos) : List Move :=
  (List.range 64).flatMap (fun i => pieceMoves p i) ++ castleMoves p

def clearRightsAt (cr : CastleRights) (i : Nat) : CastleRights :=
  let cr := if i = 0 then { cr with wq := false } else cr
  let cr := if i = 7 then { cr with wk := false } else cr
  let cr := if i = 56 then { cr with bq := false } else cr
  if i = 63 then { cr with bk := false } else cr

def clearKingRights (cr : CastleRights) (c : Color) : CastleRights :=
  match c with
  | .white => { cr with wk := false, wq := false }
  | .black => { cr with bk := false, bq := false }

/-- Apply a (generated) move to a position; returns the position unchanged when
no piece sits on the origin square. -/
def applyMoveFull (p : Pos) (m : Move) : Pos :=
  match pieceAt p.board m.fromSq with
  | none => p
  | some pc =>
    let isCapture := (pieceAt p.board m.toSq).isSome
    let isEp := pc.kind = PieceKind.pawn && p.ep = some m.toSq && !isCapture
    let placed : Piece :=
      match m.promo with
      | some k => ⟨pc.color, k⟩
      | none => pc
    let b1 := setSq (setSq p.board m.fromSq none) m.toSq (some placed)
    let b2 :=
      if isEp then
        setSq b1 (rankOf m.fromSq * 8 + fileOf m.toSq) none
      else b1
    let b3 :=
      if pc.kind = PieceKind.king && m.toSq + 2 = m.fromSq + 4 && fileOf m.fromSq = 4 then
        -- kingside castle: move the rook from the corner to the other side
        setSq (setSq b2 (m.fromSq + 3) none) (m.fromSq + 1) (some ⟨pc.color, .rook⟩)
      else if pc.kind = PieceKind.king && m.toSq + 2 = m.fromSq && fileOf m.fromSq = 4 then
        setSq (setSq b2 (m.fromSq - 4) none) (m.fromSq - 1) (some ⟨pc.color, .rook⟩)
      else b2
    let cr :=
      if pc.kind = PieceKind.king then clearKingRights p.castle pc.color
      else p.castle
    let cr := clearRightsAt cr m.fromSq
    let cr := clearRightsAt cr m.toSq
    let newEp : Option Nat :=
      if pc.kind = PieceKind.pawn && (m.toSq + 16 = m.fromSq || m.fromSq + 16 = m.toSq) then
        some ((m.fromSq + m.toSq) / 2)
      else none
    let hm := if pc.kind = PieceKind.pawn || isCapture then 0 else p.halfmove + 1
    let fm := if p.turn = Color.black then p.fullmove + 1 else p.fullmove
    { board := b3, turn := p.turn.other, castle := cr, ep := newEp, halfmove := hm,
      fullmove := fm }

def inCheck (p : Pos) (c : Color) : Bool :=
  match kingSquare p.board c with
  | some k => attacked p.board c.other k
  | none => false

def legalMoves (p : Pos) : List Move :=
  (pseudoMoves p).filter (fun m => !inCheck (applyMoveFull p m) p.turn)

/-! FEN rendering and parsing. -/

def pieceChar (pc : Piece) : Char :=
  match pc.color, pc.kind with
  | .white, .pawn => 'P'
  | .white, .knight => 'N'
  | .white, .bishop => 'B'
  | .white, .rook => 'R'
  | .white, .queen => 'Q'
  | .white, .king => 'K'
  | .black, .pawn => 'p'
  | .black, .knight => 'n'
  | .black, .bishop => 'b'
  | .black, .rook => 'r'
  | .black, .queen => 'q'
  | .black, .king => 'k'

def rowChars (cells : List (Option Piece)) : List Char :=
  let step := fun (acc : List Char × Nat) (c : Option Piece) =>
    match c with
    | none => (acc.1, acc.2 + 1)
    | some pc =>
      if acc.2 = 0 then (acc.1 ++ [pieceChar pc], 0)
      else (acc.1 ++ [Char.ofNat (48 + acc.2), pieceChar pc], 0)
  let res := cells.foldl step ([], 0)
  if res.2 = 0 then res.1 else res.1 ++ [Char.ofNat (48 + res.2)]

def rowCells (b : Board) (r : Nat) : List (Option Piece) :=
  (List.range 8).map (fun f => pieceAt b (r * 8 + f))

def placementChars (b : Board) : List Char :=
  List.intercalate ['/'] ((List.range 8).map (fun k => rowChars (rowCells b (7 - k))))

/-- Piece-placement field of the FEN of a board. -/
def placementFen (b : Board) : String := String.mk (placementChars b)

def charPiece (c : Char) : Option Piece :=
  match c with
  | 'P' => some ⟨.white, .pawn⟩
  | 'N' => some ⟨.white, .knight⟩
  | 'B' => some ⟨.white, .bishop⟩
  | 'R' => some ⟨.white, .rook⟩
  | 'Q' => some ⟨.white, .queen⟩
  | 'K' => some ⟨.white, .king⟩
  | 'p' => some ⟨.black, .pawn⟩
  | 'n' => some ⟨.black, .knight⟩
  | 'b' => some ⟨.black, .bishop⟩
  | 'r' => some ⟨.black, .rook⟩
  | 'q' => some ⟨.black, .queen⟩
  | 'k' => some ⟨.black, .king⟩
  | _ => none

def parseRow : List Char → Option (List (Option Piece))
  | [] => some []
  | c :: cs =>
    match parseRow cs with
    | none => none
    | some rest =>
      if 49 ≤ c.toNat && c.toNat ≤ 56 then
        some (List.replicate (c.toNat - 48) none ++ rest)
      else
        match charPiece c with
        | some pc => some (some pc :: rest)
        | none => none

def splitChars : List Char → Char → List (List Char)
  | [], _ => [[]]
  | c :: cs, sep =>
    if c = sep then [] :: splitChars cs sep
    else
      match splitChars cs sep with
      | g :: gs => (c :: g) :: gs
      | [] => [[c]]

/-- JS String.prototype.split with a single-character separator. -/
def jsSplit (s : String) (sep : Char) : List String :=
  (splitChars s.toList sep).map String.mk

def parsePlacement (s : String) : Option Board :=
  let rows := splitChars s.toList '/'
  if rows.length = 8 then
    let parsed := rows.filterMap parseRow
    if parsed.length = 8 && parsed.all (fun r => r.length = 8) then
      some (parsed.reverse.flatten)
    else none
  else none

def parseCastle (s : String) : Option CastleRights :=
  if s = "-" then some ⟨false, false, false, false⟩
  else if s.toList ≠ [] && s.toList.all (fun c => c = 'K' || c = 'Q' || c = 'k' || c = 'q') then
    some ⟨s.toList.contains 'K', s.toList.contains 'Q', s.toList.contains 'k',
      s.toList.contains 'q'⟩
  else none

def squareOfChars (cf cr : Char) : Option Nat :=
  if 97 ≤ cf.toNat && cf.toNat ≤ 104 && 49 ≤ cr.toNat && cr.toNat ≤ 56 then
    some ((cr.toNat - 49) * 8 + (cf.toNat - 97))
  else none

def parseEp (s : String) : Option (Option Nat) :=
  if s = "-" then some none
  else
    match s.toList with
    | [cf, cr] =>
      match squareOfChars cf cr with
      | some i => some (some i)
      | none => none
    | _ => none

def parseNat (s : String) : Option Nat :=
  if s.toList ≠ [] && s.toList.all (fun c => 48 ≤ c.toNat && c.toNat ≤ 57) then
    some (s.toList.foldl (fun n c => n * 10 + (c.toNat - 48)) 0)
  else none

/-- FEN loader (the equivalent of building a new Chess instance from a FEN
string; returns none where chess.js would raise an invalid-FEN error). -/
def parseFen (s : String) : Option Pos :=
  match jsSplit s ' ' with
  | [pl, tn, ca, ep, hm, fm] =>
    match parsePlacement pl, parseCastle ca, parseEp ep, parseNat hm, parseNat fm with
    | some b, some cr, some epv, some h, some f =>
      if tn = "w" then some ⟨b, .white, cr, epv, h, f⟩
      else if tn = "b" then some ⟨b, .black, cr, epv, h, f⟩
      else none
    | _, _, _, _, _ => none
  | _ => none

def backRank (c : Color) : List (Option Piece) :=
  [some ⟨c, .rook⟩, some ⟨c, .knight⟩, some ⟨c, .bishop⟩, some ⟨c, .queen⟩,
   some ⟨c, .king⟩, some ⟨c, .bishop⟩, some ⟨c, .knight⟩, some ⟨c, .rook⟩]

def pawnRank (c : Color) : List (Option Piece) := List.replicate 8 (some ⟨c, .pawn⟩)

def emptyRank : List (Option Piece) := List.replicate 8 none

/-- The standard initial position. -/
def initPos : Pos :=
  { board := backRank .white ++ pawnRank .white ++ emptyRank ++ emptyRank ++ emptyRank ++
      emptyRank ++ pawnRank .black ++ backRank .black,
    turn := .white, castle := ⟨true, true, true, true⟩, ep := none, halfmove := 0,
    fullmove := 1 }

def fileCharOf (i : Nat) : Char := Char.ofNat (97 + fileOf i)

def rankCharOf (i : Nat) : Char := Char.ofNat (49 + rankOf i)

def promoChar (k : PieceKind) : Char :=
  match k with
  | .queen => 'q'
  | .rook => 'r'
  | .bishop => 'b'
  | .knight => 'n'
  | _ => 'q'

/-- Coordinate notation of a move (origin square, destination square, optional
promotion letter), as built by the server from chess.js move objects. -/
def uciOfMove (m : Move) : String :=
  String.mk ([fileCharOf m.fromSq, rankCharOf m.fromSq, fileCharOf m.toSq, rankCharOf m.toSq] ++
    (match m.promo with
     | some k => [promoChar k]
     | none => []))

def promoOfChar (c : Char) : Option PieceKind :=
  match c with
  | 'q' => some .queen
  | 'r' => some .rook
  | 'b' => some .bishop
  | 'n' => some .knight
  | _ => none

/-- Parse a coordinate-notation move the way the server slices it (substring
0-2, 2-4 and the character at index 4 when present). -/
def parseUciMove (s : String) : Option (Nat × Nat × Option PieceKind) :=
  match s.toList with
  | c0 :: c1 :: c2 :: c3 :: rest =>
    match squareOfChars c0 c1, squareOfChars c2 c3 with
    | some a, some b =>
      match rest with
      | [] => some (a, b, none)
      | c4 :: _ =>
        match promoOfChar c4 with
        | some k => some (a, b, some k)
        | none => none
    | _, _ => none
  | _ => none

/-- Apply a coordinate-notation move via the oracle: the equivalent of the
chess.js move call the server makes; none when chess.js would raise an
illegal-move error. -/
def applyUci (p : Pos) (s : String) : Option Pos :=
  match parseUciMove s with
  | none => none
  | some (a, b, pr) =>
    match (legalMoves p).find? (fun m => m.fromSq = a && m.toSq = b && m.promo == pr) with
    | some m => some (applyMoveFull p m)
    | none => none

def isLegalUci (p : Pos) (s : String) : Bool := (applyUci p s).isSome

/-!
Server-state model: embedding of the api-server's position tracker,
reconciler (syncPositionInternal), autoplay loop and operator endpoints.
All external observations (board snapshots, extracted move lists,
orientation, engine results, executor success) are inputs.
-/

/-- JS falsiness on a nullable string: null/undefined and the empty string
are falsy. -/
def strOpt : Option String → Option String
  | none => none
  | some s => if s = "" then none else some s

/-- First space-separated field of a FEN-like string (the piece placement). -/
def fenField0 (s : String) : String := (jsSplit s ' ').headD ""

/-- Second space-separated field when present and non-empty (the turn
indicator), mirroring the falsiness check on fen.split(' ')[1]. -/
def turnFieldOf (s : String) : Option String :=
  match (jsSplit s ' ')[1]? with
  | some t => if t = "" then none else some t
  | none => none

/-- Turn colour read off a FEN-like string the way detectTurn does: the
second field compared against the letter w, anything else giving black. -/
def detectTurnFromFen (s : String) : Color :=
  if (jsSplit s ' ')[1]? = some "w" then Color.white else Color.black

/-- Piece placement of the standard starting position, as the literal the
server compares against. -/
def startBoardFen : String := "rnbqkbnr/pppppppp/8/8/8/8/PPPPPPPP/RNBQKBNR"

/-- Replay a move list, failing on the first illegal move (the verification
replay in the autoplay loop, which breaks on error). -/
def replayStrict (p : Pos) : List String → Option Pos
  | [] => some p
  | m :: ms =>
    match applyUci p m with
    | some q => replayStrict q ms
    | none => none

/-- Replay a move list, skipping illegal moves (the expected-position replay
in syncPositionInternal logs the error and continues the loop). -/
def replayLoose (p : Pos) : List String → Pos
  | [] => p
  | m :: ms =>
    match applyUci p m with
    | some q => replayLoose q ms
    | none => replayLoose p ms

/-- Longest prefix of a move list that validates in sequence from p, together
with the resulting position (the validMoves loop that breaks at the first
invalid extracted move). -/
def validMovesOf (p : Pos) : List String → List String × Pos
  | [] => ([], p)
  | m :: ms =>
    match applyUci p m with
    | some q =>
      let rest := validMovesOf q ms
      (m :: rest.1, rest.2)
    | none => ([], p)

/-- First oracle-legal move from p whose resulting placement equals the given
placement string, in the oracle's enumeration order. -/
def findDetectedMove (p : Pos) (targetBoard : String) : Option String :=
  ((legalMoves p).find? (fun m => placementFen (applyMoveFull p m).board = targetBoard)).map
    uciOfMove

/-- The module-level mutable state of the api-server that the claims are
about (engine configuration and time tracking are not modelled). -/
structure ServerState where
  connected : Bool
  moveHistory : List String
  startingFen : Option String
  chessPos : Pos
  lastQueryFen : Option String
  engineOn : Bool
  autoplayEnabled : Bool
  autoplayColor : Color
  autoplayAutoDetect : Bool
  autoplayBusy : Bool
deriving DecidableEq

/-- The starting position the server replays from: a parse of startingFen
when set (a failing parse is the thrown invalid-FEN error), the standard
start otherwise. -/
def startPosOf (st : ServerState) : Option Pos :=
  match st.startingFen with
  | none => some initPos
  | some f => parseFen f

/-- Side to move obtained by replaying moveHistory from the starting
position through the oracle; none when the replay fails. -/
def derivedTurnColor (st : ServerState) : Option Color :=
  match startPosOf st with
  | none => none
  | some sp => (replayStrict sp st.moveHistory).map Pos.turn

/-- External observations consumed by one syncPositionInternal call. -/
structure SyncEnv where
  boardFen : Option String
  extract1 : Option (List String)
  extract2 : Option (List String)
deriving DecidableEq

/-- Tagged outcomes of syncPositionInternal, mirroring the result objects it
returns (error tags stand for the caught-exception returns). -/
inductive SyncResult where
  | notConnected
  | noBoard
  | adopted (moves : List String)
  | fromStart
  | customStart
  | customStartFail
  | startFenInvalid
  | matched
  | detected (m : String)
  | detectedLoadFail (m : String)
  | resynced (moves : List String)
  | diverged
deriving DecidableEq

/-- Fallthrough of the empty-history branch of syncPositionInternal when no
move list could be adopted: fresh standard game when the snapshot shows the
standard placement, otherwise record a custom starting position. -/
def syncFreshFallback (currentFen : String) (st : ServerState) : SyncResult × ServerState :=
  if fenField0 currentFen = startBoardFen then
    (.fromStart, { st with startingFen := none })
  else
    match parseFen currentFen with
    | some q =>
      (.customStart, { st with startingFen := some currentFen, moveHistory := [], chessPos := q })
    | none =>
      -- chess.load throws after startingFen and moveHistory were set
      (.customStartFail, { st with startingFen := some currentFen, moveHistory := [] })

/-- Empty-history branch of syncPositionInternal: try to adopt the extracted
external move list (its longest valid prefix), else fall through. -/
def syncFresh (env : SyncEnv) (currentFen : String) (st : ServerState) :
    SyncResult × ServerState :=
  match env.extract1 with
  | some ms =>
    if ms = [] then syncFreshFallback currentFen st
    else if (validMovesOf initPos ms).1 = [] then syncFreshFallback currentFen st
    else
      (.adopted (validMovesOf initPos ms).1,
        { st with moveHistory := (validMovesOf initPos ms).1, chessPos := (validMovesOf initPos ms).2, lastQueryFen := none })
  | none => syncFreshFallback currentFen st

/-- Full-move-list recovery fallback of the non-empty-history branch. -/
def syncResyncFallback (extracted : Option (List String)) (st : ServerState) :
    SyncResult × ServerState :=
  match extracted with
  | some ms =>
    if ms = [] then (.diverged, st)
    else if (validMovesOf initPos ms).1 = [] then (.diverged, st)
    else
      (.resynced (validMovesOf initPos ms).1,
        { st with moveHistory := (validMovesOf initPos ms).1, chessPos := (validMovesOf initPos ms).2 })
  | none => (.diverged, st)

/-- Non-empty-history branch of syncPositionInternal: compare placements,
infer a single opponent move, or attempt the full re-sync fallback. -/
def syncStale (env : SyncEnv) (currentFen : String) (st : ServerState) :
    SyncResult × ServerState :=
  match startPosOf st with
  | none => (.startFenInvalid, st)
  | some sp =>
    if fenField0 currentFen = placementFen (replayLoose sp st.moveHistory).board then
      (.matched, st)
    else
      match findDetectedMove (replayLoose sp st.moveHistory) (fenField0 currentFen) with
      | some mv =>
        (match parseFen currentFen with
         | some q =>
           (.detected mv,
             { st with moveHistory := st.moveHistory ++ [mv], chessPos := q, lastQueryFen := none })
         | none =>
           -- chess.load throws after the detected move was pushed
           (.detectedLoadFail mv, { st with moveHistory := st.moveHistory ++ [mv] }))
      | none => syncResyncFallback env.extract2 st

/-- Embedding of syncPositionInternal: reconcile the tracked record against
one external snapshot, possibly inferring one opponent move or adopting an
externally extracted move list. -/
def syncPositionInternal (env : SyncEnv) (st : ServerState) : SyncResult × ServerState :=
  if st.connected = false then (.notConnected, st)
  else
    match strOpt env.boardFen with
    | none => (.noBoard, st)
    | some currentFen =>
      if st.moveHistory = [] then syncFresh env currentFen st
      else syncStale env currentFen st

/-- External observations consumed by one autoplay iteration. -/
structure Env where
  gameActive : Bool
  sync1 : SyncEnv
  orientation : Option Color
  sync2 : SyncEnv
  detectFen : Option String
  queryFen : Option String
  finalFen : Option String
  engineMove : String
  beforeFen : Option String
  execOk : Bool
  afterFen : Option String
deriving DecidableEq

/-- One engine query: the arguments of the setPosition call, the board
snapshot that was marked as queried, and the returned best move. -/
structure SearchEv where
  setupFen : String
  setupMoves : List String
  snapshot : String
  bestMove : String
deriving DecidableEq

/-- Where an autoplay iteration ended (early returns, caught exceptions and
the two post-move rejection branches each get a tag). -/
inductive IterOutcome where
  | skippedBusy
  | gameOver
  | noOrientation
  | orientationChanged
  | noTurn
  | notOurTurn
  | engineNotReady
  | noFen
  | samePosition
  | noTurnField
  | fenTurnMismatch
  | turnInconsistent
  | historyInvalid
  | wrongSideAfterReplay
  | noFinalFen
  | finalTurnMismatch
  | execFailed
  | rejectedUnchanged
  | rejectedNoFlip
  | afterFenCrash
  | played
deriving DecidableEq

structure IterOut where
  st : ServerState
  searched : Option SearchEv
  outcome : IterOutcome
deriving DecidableEq

/-- Post-search phase: fetch the pre-move snapshot, execute the move, re-fetch
and confirm placement change plus turn flip before committing to history. -/
def iterPostMove (st2 : ServerState) (ev : SearchEv) (env : Env) : IterOut :=
  if env.execOk = false then ⟨st2, some ev, .execFailed⟩
  else if env.afterFen = env.beforeFen then ⟨st2, some ev, .rejectedUnchanged⟩
  else
    match env.afterFen with
    | none => ⟨st2, some ev, .afterFenCrash⟩
    | some a =>
      if detectTurnFromFen a = st2.autoplayColor then ⟨st2, some ev, .rejectedNoFlip⟩
      else
        ⟨{ st2 with moveHistory := st2.moveHistory ++ [ev.bestMove], lastQueryFen := none },
          some ev, .played⟩

/-- Turn detection, safety gates, engine query and move execution of one
autoplay iteration, on the state left by the reconciler. -/
def iterTurnPhase (st1 : ServerState) (env : Env) : IterOut :=
  if st1.connected = false then ⟨st1, none, .noTurn⟩
  else
    match strOpt env.detectFen with
    | none => ⟨st1, none, .noTurn⟩
    | some df =>
      let currentTurn := detectTurnFromFen df
      if currentTurn ≠ st1.autoplayColor then ⟨st1, none, .notOurTurn⟩
      else if st1.engineOn = false then ⟨st1, none, .engineNotReady⟩
      else
        match strOpt env.queryFen with
        | none => ⟨st1, none, .noFen⟩
        | some q =>
          if st1.lastQueryFen = some q then ⟨st1, none, .samePosition⟩
          else
            match turnFieldOf q with
            | none => ⟨st1, none, .noTurnField⟩
            | some tf =>
              let fenTurn := if tf = "w" then Color.white else Color.black
              if fenTurn ≠ st1.autoplayColor then ⟨st1, none, .fenTurnMismatch⟩
              else if fenTurn ≠ currentTurn then ⟨st1, none, .turnInconsistent⟩
              else
                -- the snapshot is marked as queried before the replay gates
                let st2 := { st1 with lastQueryFen := some q }
                match startPosOf st2 with
                | none => ⟨st2, none, .historyInvalid⟩
                | some sp =>
                  match replayStrict sp st2.moveHistory with
                  | none => ⟨st2, none, .historyInvalid⟩
                  | some vpos =>
                    if vpos.turn ≠ st2.autoplayColor then
                      ⟨st2, none, .wrongSideAfterReplay⟩
                    else
                      let setup : String × List String :=
                        match st2.startingFen with
                        | some sf =>
                          if st2.moveHistory = [] then (q, []) else (sf, st2.moveHistory)
                        | none => ("startpos", st2.moveHistory)
                      match strOpt env.finalFen with
                      | none => ⟨st2, none, .noFinalFen⟩
                      | some ff =>
                        if detectTurnFromFen ff ≠ st2.autoplayColor then
                          ⟨st2, none, .finalTurnMismatch⟩
                        else
                          iterPostMove st2 ⟨setup.1, setup.2, q, env.engineMove⟩ env

/-- Body of one autoplay iteration (inside the busy guard): game-over check,
reconciliation, orientation re-detection, then the turn phase. -/
def iterCore (st : ServerState) (env : Env) : IterOut :=
  if st.connected = false || env.gameActive = false then ⟨st, none, .gameOver⟩
  else if (syncPositionInternal env.sync1 st).2.autoplayAutoDetect then
    match env.orientation with
    | none => ⟨(syncPositionInternal env.sync1 st).2, none, .noOrientation⟩
    | some orient =>
      if orient = (syncPositionInternal env.sync1 st).2.autoplayColor then
        iterTurnPhase (syncPositionInternal env.sync1 st).2 env
      else
        ⟨(syncPositionInternal env.sync2 { (syncPositionInternal env.sync1 st).2 with moveHistory := [], startingFen := none, chessPos := initPos, lastQueryFen := none, autoplayColor := orient }).2,
          none, .orientationChanged⟩
  else iterTurnPhase (syncPositionInternal env.sync1 st).2 env

/-- One invocation of the autoplay loop entry point: dropped while busy, and
the busy flag is released at the end of the body on every path (the finally
clause; thrown exceptions are the error-tagged outcomes). -/
def autoplayLoop (st : ServerState) (env : Env) : IterOut :=
  if st.autoplayBusy then ⟨st, none, .skippedBusy⟩
  else
    ⟨{ (iterCore { st with autoplayBusy := true } env).st with autoplayBusy := false },
      (iterCore { st with autoplayBusy := true } env).searched,
      (iterCore { st with autoplayBusy := true } env).outcome⟩

/-- State left by the reconciler inside an autoplay iteration, against which
the safety gates run. -/
def afterSyncState (st : ServerState) (env : Env) : ServerState :=
  (syncPositionInternal env.sync1 { st with autoplayBusy := true }).2

/-! Operator endpoints. -/

inductive MoveResp where
  | errNoMove
  | errNotConnected
  | errBadFormat
  | errExec
  | ok
deriving DecidableEq

/-- The coordinate-move pattern of the endpoints. -/
def uciFormatOk (s : String) : Bool :=
  let fileOk := fun (c : Char) => 97 ≤ c.toNat && c.toNat ≤ 104
  let rankOk := fun (c : Char) => 49 ≤ c.toNat && c.toNat ≤ 56
  let promoOk := fun (c : Char) => c = 'q' || c = 'r' || c = 'b' || c = 'n'
  match s.toList with
  | [a, b, c, d] => fileOk a && rankOk b && fileOk c && rankOk d
  | [a, b, c, d, e] => fileOk a && rankOk b && fileOk c && rankOk d && promoOk e
  | _ => false

/-- Embedding of the POST /move handler: format-validate, execute on the
board, then append to moveHistory; execOk is whether the physical execution
resolved. -/
def moveEndpoint (st : ServerState) (mv : Option String) (execOk : Bool) :
    MoveResp × ServerState :=
  match strOpt mv with
  | none => (.errNoMove, st)
  | some m =>
    if st.connected = false then (.errNotConnected, st)
    else if uciFormatOk m = false then (.errBadFormat, st)
    else if execOk = false then (.errExec, st)
    else (.ok, { st with moveHistory := st.moveHistory ++ [m] })

inductive PositionResp where
  | errFormat (invalid : List String)
  | errFen
  | errMoveSeq (m : String)
  | ok
deriving DecidableEq

/-- Apply moves in sequence to the chess instance, stopping at the first
illegal one and reporting it. -/
def applyMovesChess : Pos → List String → Pos × Option String
  | p, [] => (p, none)
  | p, m :: ms =>
    match applyUci p m with
    | some q => applyMovesChess q ms
    | none => (p, some m)

/-- Apply the replaced move list to the chess instance and report the first
illegal move; moveHistory has already been replaced wholesale. -/
def positionApplyPhase (st1 : ServerState) (moves : List String) : PositionResp × ServerState :=
  match applyMovesChess st1.chessPos moves with
  | (p, some m) => (.errMoveSeq m, { st1 with moveHistory := moves, chessPos := p })
  | (p, none) => (.ok, { st1 with moveHistory := moves, chessPos := p })

/-- Embedding of the POST /position handler: format-validate all moves, set
or clear the starting FEN, replace moveHistory wholesale, then apply the
moves one by one, returning an error at the first illegal one. -/
def positionEndpoint (st : ServerState) (moves : List String) (fen : Option String) :
    PositionResp × ServerState :=
  if moves.filter (fun x => uciFormatOk x = false) ≠ [] then
    (.errFormat (moves.filter (fun x => uciFormatOk x = false)), st)
  else
    match strOpt fen with
    | some f =>
      match parseFen f with
      | none => (.errFen, st)
      | some q => positionApplyPhase { st with startingFen := some f, chessPos := q } moves
    | none => positionApplyPhase { st with startingFen := none, chessPos := initPos } moves

structure ResetEnv where
  orientation : Option Color
deriving DecidableEq

structure ResetEvents where
  newGameSent : Bool
  colorRedetected : Bool
deriving DecidableEq

/-- Embedding of the POST /reset handler: clear history, starting FEN and
lastQueryFen, reset the chess instance, send ucinewgame when the engine is
active, and re-detect the board orientation in auto-detect autoplay. -/
def resetEndpoint (st : ServerState) (env : ResetEnv) : ServerState × ResetEvents :=
  let st1 := { st with moveHistory := [], startingFen := none, chessPos := initPos, lastQueryFen := none }
  let newGameSent := st1.engineOn
  if st1.autoplayEnabled && st1.autoplayAutoDetect then
    match env.orientation with
    | some o =>
      if o ≠ st1.autoplayColor then
        ({ st1 with autoplayColor := o }, ⟨newGameSent, true⟩)
      else (st1, ⟨newGameSent, false⟩)
    | none => (st1, ⟨newGameSent, false⟩)
  else (st1, ⟨newGameSent, false⟩)

namespace UCIEngine

/-- The single protocol line built and sent by UCIEngine.setPosition. -/
def setPositionCommand (fen : String) (moves : List String) : String :=
  let command := if fen = "startpos" then "position startpos" else "position fen " ++ fen
  if moves ≠ [] then command ++ " moves " ++ String.intercalate " " moves else command

/-- Commands written to the engine by one setPosition call. -/
def setPosition (fen : String) (moves : List String) : List String :=
  [setPositionCommand fen moves]

end UCIEngine

/-! Concrete states, snapshots and environments used by the verification
scenarios. -/

/-- A freshly connected server with engine enabled and autoplay configured
for white, no custom start, empty history. -/
def baseState : ServerState :=
  { connected := true, moveHistory := [], startingFen := none, chessPos := initPos,
    lastQueryFen := none, engineOn := true, autoplayEnabled := true, autoplayColor := .white,
    autoplayAutoDetect := false, autoplayBusy := false }

/-- Position replayed through the oracle from the tracked record. -/
def derivedPosition (st : ServerState) : Option Pos :=
  match startPosOf st with
  | none => none
  | some sp => replayStrict sp st.moveHistory

/-- The position after 1. e4. -/
def posE4 : Pos := (applyUci initPos "e2e4").getD initPos

def startFenStr : String := "rnbqkbnr/pppppppp/8/8/8/8/PPPPPPPP/RNBQKBNR w KQkq - 0 1"

def fenAfterE2e4 : String := "rnbqkbnr/pppppppp/8/8/4P3/8/PPPP1PPP/RNBQKBNR b KQkq e3 0 1"

def fenAfterE2e4E7e5 : String := "rnbqkbnr/pppp1ppp/8/4p3/4P3/8/PPPP1PPP/RNBQKBNR w KQkq e6 0 2"

/-- Same placement as after 1. e4 e5 but with different turn, castling,
en-passant and clock fields. -/
def fenAfterE2e4E7e5Alt : String := "rnbqkbnr/pppp1ppp/8/4p3/4P3/8/PPPP1PPP/RNBQKBNR b - - 7 3"

/-- Standard starting placement with a lying turn field claiming black to
move. -/
def lieBlackStartFen : String := "rnbqkbnr/pppppppp/8/8/8/8/PPPPPPPP/RNBQKBNR b KQkq - 0 1"

/-- The position after 1. a3 a6. -/
def fenAfterA3a6 : String := "rnbqkbnr/1ppppppp/p7/8/8/P7/1PPPPPPP/RNBQKBNR w KQkq - 0 2"

def noSyncEnv : SyncEnv := ⟨none, none, none⟩

/-- Environment of a clean autoplay iteration from the standard start where
the engine move e2e4 is executed and accepted by the external board. -/
def playedEnv : Env :=
  { gameActive := true, sync1 := ⟨some startFenStr, none, none⟩, orientation := none,
    sync2 := noSyncEnv, detectFen := some startFenStr, queryFen := some startFenStr,
    finalFen := some startFenStr, engineMove := "e2e4", beforeFen := some startFenStr,
    execOk := true, afterFen := some fenAfterE2e4 }

def gateState : ServerState := { baseState with autoplayColor := .black }

/-- Environment whose snapshots all report black to move on the standard
placement while the tracked record derives white to move. -/
def gateEnv : Env :=
  { gameActive := true, sync1 := ⟨some lieBlackStartFen, none, none⟩, orientation := none,
    sync2 := noSyncEnv, detectFen := some lieBlackStartFen, queryFen := some lieBlackStartFen,
    finalFen := some lieBlackStartFen, engineMove := "e7e5", beforeFen := some lieBlackStartFen,
    execOk := true, afterFen := some lieBlackStartFen }

/-- First iteration against a board frozen at the position after 1. a3 a6:
no move list is available, the snapshot becomes a custom start, a search is
issued and the executed move is rejected. -/
def frozenEnv1 : Env :=
  { gameActive := true, sync1 := ⟨some fenAfterA3a6, none, none⟩, orientation := none,
    sync2 := noSyncEnv, detectFen := some fenAfterA3a6, queryFen := some fenAfterA3a6,
    finalFen := some fenAfterA3a6, engineMove := "g1f3", beforeFen := some fenAfterA3a6,
    execOk := true, afterFen := some fenAfterA3a6 }

/-- Second iteration against the same frozen board, with the view now
offering an extractable move list that the reconciler adopts. -/
def frozenEnv2 : Env := { frozenEnv1 with sync1 := ⟨some fenAfterA3a6, some ["b1c3", "b8c6"], none⟩ }

/-- What the claim says setPosition sends: the standard-start token or an
explicit position string, with the move list appended exactly when it is
non-empty. -/
def setPositionSpecSends (fen : String) (moves : List String) : List String :=
  [(if fen = "startpos" then "position startpos" else "position fen " ++ fen) ++
    (if moves = [] then "" else " moves " ++ String.intercalate " " moves)]

def c3State : ServerState := { baseState with moveHistory := ["e2e4"] }

def c3Env : SyncEnv := ⟨some fenAfterE2e4E7e5, none, none⟩

/-- The position after 1. e4 e5. -/
def posE4E5 : Pos := (applyUci posE4 "e7e5").getD initPos

/-- The move e7e5 as a move record (e7 is square 52, e5 is square 36). -/
def moveE7e5 : Move := ⟨52, 36, none⟩

/-! Helper lemmas about the reconciler and the autoplay iteration. -/

theorem syncFreshFallback_fields (f : String) (st : ServerState) :
    (syncFreshFallback f st).2.connected = st.connected ∧
    (syncFreshFallback f st).2.engineOn = st.engineOn ∧
    (syncFreshFallback f st).2.autoplayEnabled = st.autoplayEnabled ∧
    (syncFreshFallback f st).2.autoplayColor = st.autoplayColor ∧
    (syncFreshFallback f st).2.autoplayAutoDetect = st.autoplayAutoDetect ∧
    (syncFreshFallback f st).2.autoplayBusy = st.autoplayBusy ∧
    (syncFreshFallback f st).2.lastQueryFen = st.lastQueryFen := by
  unfold syncFreshFallback
  repeat (any_goals split)
  all_goals simp

theorem sync_preserves_fields (env : SyncEnv) (st : ServerState) :
    (syncPositionInternal env st).2.connected = st.connected ∧
    (syncPositionInternal env st).2.engineOn = st.engineOn ∧
    (syncPositionInternal env st).2.autoplayEnabled = st.autoplayEnabled ∧
    (syncPositionInternal env st).2.autoplayColor = st.autoplayColor ∧
    (syncPositionInternal env st).2.autoplayAutoDetect = st.autoplayAutoDetect ∧
    (syncPositionInternal env st).2.autoplayBusy = st.autoplayBusy := by
  unfold syncPositionInternal syncFresh syncStale syncResyncFallback
  repeat (any_goals split)
  all_goals first
    | simp
    | (have h := syncFreshFallback_fields (by assumption) st; exact ⟨h.1, h.2.1, h.2.2.1, h.2.2.2.1, h.2.2.2.2.1, h.2.2.2.2.2.1⟩)

theorem sync_lastQuery_cases (env : SyncEnv) (st : ServerState) :
    (syncPositionInternal env st).2.lastQueryFen = st.lastQueryFen ∨
    (syncPositionInternal env st).2.lastQueryFen = none := by
  unfold syncPositionInternal syncFresh syncStale syncResyncFallback
  repeat (any_goals split)
  all_goals simp [syncFreshFallback_fields]

theorem iterPostMove_searched (st2 : ServerState) (ev : SearchEv) (env : Env) :
    (iterPostMove st2 ev env).searched = some ev := by
  unfold iterPostMove
  repeat (any_goals split)
  all_goals simp

theorem turnPhase_inv (st1 : ServerState) (env : Env) (ev : SearchEv)
    (h : (iterTurnPhase st1 env).searched = some ev) :
    st1.lastQueryFen ≠ some ev.snapshot ∧
    strOpt env.queryFen = some ev.snapshot ∧
    derivedTurnColor st1 = some st1.autoplayColor ∧
    ev.bestMove = env.engineMove ∧
    iterTurnPhase st1 env = iterPostMove { st1 with lastQueryFen := some ev.snapshot } ev env := by
  simp only [iterTurnPhase] at h
  repeat (any_goals (split at h))
  any_goals (simp at h)
  all_goals
    rw [iterPostMove_searched] at h
  all_goals
    obtain rfl : _ = ev := Option.some.inj h
  all_goals
    refine ⟨by simp_all, by simp_all, ?_, rfl, ?_⟩ <;> simp_all [derivedTurnColor, startPosOf, iterTurnPhase]

theorem iterCore_searched_inv (st : ServerState) (env : Env) (ev : SearchEv)
    (h : (iterCore st env).searched = some ev) :
    iterCore st env = iterTurnPhase (syncPositionInternal env.sync1 st).2 env := by
  simp only [iterCore] at h ⊢
  repeat (any_goals (split at h))
  any_goals (simp at h)
  all_goals simp_all

theorem autoplayLoop_searched_core (st : ServerState) (env : Env) (ev : SearchEv)
    (h : (autoplayLoop st env).searched = some ev) :
    st.autoplayBusy = false ∧
    (iterTurnPhase (afterSyncState st env) env).searched = some ev ∧
    autoplayLoop st env =
      ⟨{ (iterTurnPhase (afterSyncState st env) env).st with autoplayBusy := false }, some ev,
        (iterTurnPhase (afterSyncState st env) env).outcome⟩ := by
  by_cases hb : st.autoplayBusy = true
  · exfalso
    rw [autoplayLoop, if_pos hb] at h
    simp at h
  · have h1 : (iterCore { st with autoplayBusy := true } env).searched = some ev := by
      rw [autoplayLoop, if_neg hb] at h
      exact h
    have hcore := iterCore_searched_inv { st with autoplayBusy := true } env ev h1
    have h2 : (iterTurnPhase (afterSyncState st env) env).searched = some ev := by
      rw [afterSyncState, ← hcore]
      exact h1
    refine ⟨by simpa using hb, h2, ?_⟩
    have hloop : autoplayLoop st env =
        ⟨{ (iterTurnPhase (afterSyncState st env) env).st with autoplayBusy := false },
          (iterTurnPhase (afterSyncState st env) env).searched,
          (iterTurnPhase (afterSyncState st env) env).outcome⟩ := by
      rw [autoplayLoop, if_neg hb, afterSyncState, hcore]
    rw [hloop, h2]

/-- Claim C7: the autoplay loop entry point is reentrancy-protected by the
busy flag: a trigger arriving while busy is dropped with no state mutation,
and an invocation that enters the iteration leaves the flag cleared when the
iteration completes on every path, including the error-tagged ones. -/
theorem autoplay_busy_reentrancy (st : ServerState) (env : Env) :
    (st.autoplayBusy = true → autoplayLoop st env = ⟨st, none, .skippedBusy⟩) ∧
    (st.autoplayBusy = false → (autoplayLoop st env).st.autoplayBusy = false) := by
  constructor
  · intro hb
    rw [autoplayLoop, if_pos hb]
  · intro hb
    rw [autoplayLoop, if_neg (by simp [hb])]

theorem autoplay_busy_reentrancy_witness :
    ({ baseState with autoplayBusy := true }.autoplayBusy = true ∧
      autoplayLoop { baseState with autoplayBusy := true } playedEnv =
        ⟨{ baseState with autoplayBusy := true }, none, .skippedBusy⟩) ∧
    (baseState.autoplayBusy = false ∧
      (autoplayLoop baseState playedEnv).st.autoplayBusy = false) :=
  ⟨⟨rfl, (autoplay_busy_reentrancy { baseState with autoplayBusy := true } playedEnv).1 rfl⟩,
    ⟨rfl, (autoplay_busy_reentrancy baseState playedEnv).2 rfl⟩⟩

/-- Claim C8: reset is idempotent: each of two consecutive resets yields
empty moveHistory, no custom starting position, a reset chess instance and a
cleared lastQueryFen, and each sends the new-game directive exactly when the
engine is active. -/
theorem resetEndpoint_fields (st : ServerState) (env : ResetEnv) :
    (resetEndpoint st env).1.moveHistory = [] ∧
    (resetEndpoint st env).1.startingFen = none ∧
    (resetEndpoint st env).1.lastQueryFen = none ∧
    (resetEndpoint st env).1.chessPos = initPos ∧
    (resetEndpoint st env).1.engineOn = st.engineOn ∧
    (resetEndpoint st env).2.newGameSent = st.engineOn := by
  unfold resetEndpoint
  by_cases hA : st.autoplayEnabled = true ∧ st.autoplayAutoDetect = true <;>
    refine ⟨?_, ?_, ?_, ?_, ?_, ?_⟩ <;>
    simp only [hA, if_true, if_false, ite_true, ite_false] <;>
    (repeat (any_goals split)) <;>
    simp [hA]

theorem reset_idempotent (st : ServerState) (e1 e2 : ResetEnv) :
    (resetEndpoint st e1).1.moveHistory = [] ∧
    (resetEndpoint st e1).1.startingFen = none ∧
    (resetEndpoint st e1).1.lastQueryFen = none ∧
    (resetEndpoint st e1).1.chessPos = initPos ∧
    (resetEndpoint (resetEndpoint st e1).1 e2).1.moveHistory = [] ∧
    (resetEndpoint (resetEndpoint st e1).1 e2).1.startingFen = none ∧
    (resetEndpoint (resetEndpoint st e1).1 e2).1.lastQueryFen = none ∧
    (resetEndpoint (resetEndpoint st e1).1 e2).1.chessPos = initPos ∧
    (resetEndpoint st e1).2.newGameSent = st.engineOn ∧
    (resetEndpoint (resetEndpoint st e1).1 e2).2.newGameSent = st.engineOn := by
  obtain ⟨h1, h2, h3, h4, h5, h6⟩ := resetEndpoint_fields st e1
  obtain ⟨g1, g2, g3, g4, g5, g6⟩ := resetEndpoint_fields (resetEndpoint st e1).1 e2
  exact ⟨h1, h2, h3, h4, g1, g2, g3, g4, h6, by rw [g6, h5]⟩

/-- Claim C9: setPosition sends exactly one position-setup command, built
from the standard-start token or the explicit position string with the move
list appended exactly when non-empty, and sends nothing else. -/
theorem setPosition_protocol (fen : String) (moves : List String) :
    UCIEngine.setPosition fen moves = setPositionSpecSends fen moves ∧
    (UCIEngine.setPosition fen moves).length = 1 := by
  constructor
  · unfold UCIEngine.setPosition UCIEngine.setPositionCommand setPositionSpecSends
    by_cases hm : moves = [] <;> by_cases hf : fen = "startpos" <;> simp [hm, hf]
    · have h : ("position startpos moves " : String) = "position startpos" ++ " moves " := by decide
      rw [h, String.append_assoc]
    · rw [String.append_assoc]
  · rfl

/-- Claim C2 counterexample: the move e2e5 is illegal in the tracked
position (the standard start), yet the /move handler reports success and
appends it to moveHistory: the handler performs no oracle validation. -/
theorem move_endpoint_appends_illegal :
    derivedPosition baseState = some initPos ∧
    isLegalUci initPos "e2e5" = false ∧
    moveEndpoint baseState (some "e2e5") true =
      (.ok, { baseState with moveHistory := ["e2e5"] }) := by
  refine ⟨rfl, by decide, by decide⟩

/-- Claim C2 (amended): the /move handler validates only the coordinate-move
format: a format-invalid move fails and leaves moveHistory unchanged, while
any format-valid move whose execution resolves is appended unconditionally
(no rules-oracle validation), and an execution failure leaves history
unchanged. -/
theorem move_endpoint_format_only (st : ServerState) (m : String) (execOk : Bool)
    (hc : st.connected = true) (hm : m ≠ "") :
    (uciFormatOk m = false → moveEndpoint st (some m) execOk = (.errBadFormat, st)) ∧
    (uciFormatOk m = true → execOk = true →
      moveEndpoint st (some m) execOk = (.ok, { st with moveHistory := st.moveHistory ++ [m] })) ∧
    (uciFormatOk m = true → execOk = false →
      moveEndpoint st (some m) execOk = (.errExec, st)) := by
  unfold moveEndpoint strOpt
  refine ⟨fun hf => ?_, fun hf he => ?_, fun hf he => ?_⟩ <;> simp_all

theorem move_endpoint_format_only_witness :
    baseState.connected = true ∧ "e2x5" ≠ "" ∧ uciFormatOk "e2x5" = false ∧
    moveEndpoint baseState (some "e2x5") true = (.errBadFormat, baseState) :=
  ⟨rfl, by decide, by decide,
    (move_endpoint_format_only baseState "e2x5" true rfl (by decide)).1 (by decide)⟩

/-- Claim C10: the manual position-set endpoint is not atomic on failure:
with format-valid moves whose sequence contains an in-order-illegal move,
the endpoint reports an error, yet moveHistory has already been replaced
with the full list and the chess instance holds only the legal prefix. -/
theorem position_endpoint_not_atomic (st : ServerState) (moves : List String) (p : Pos) (m : String)
    (hfmt : ∀ x ∈ moves, uciFormatOk x = true)
    (happ : applyMovesChess initPos moves = (p, some m)) :
    positionEndpoint st moves none =
      (.errMoveSeq m, { st with startingFen := none, chessPos := p, moveHistory := moves }) := by
  have hfil : moves.filter (fun x => uciFormatOk x = false) = [] := by
    rw [List.filter_eq_nil_iff]
    intro a ha
    rw [hfmt a ha]
    simp
  unfold positionEndpoint positionApplyPhase
  rw [hfil]
  simp [strOpt, happ]

theorem position_endpoint_not_atomic_witness :
    (∀ x ∈ ["e2e4", "e2e4"], uciFormatOk x = true) ∧
    applyMovesChess initPos ["e2e4", "e2e4"] = (posE4, some "e2e4") ∧
    positionEndpoint baseState ["e2e4", "e2e4"] none =
      (.errMoveSeq "e2e4",
        { baseState with startingFen := none, chessPos := posE4, moveHistory := ["e2e4", "e2e4"] }) :=
  ⟨by decide, by decide,
    position_endpoint_not_atomic baseState ["e2e4", "e2e4"] posE4 "e2e4" (by decide) (by decide)⟩

theorem iterPostMove_cases (st2 : ServerState) (ev : SearchEv) (env : Env)
    (hexec : env.execOk = true) :
    (env.afterFen = env.beforeFen →
      iterPostMove st2 ev env = ⟨st2, some ev, .rejectedUnchanged⟩) ∧
    (env.afterFen ≠ env.beforeFen → env.afterFen = none →
      iterPostMove st2 ev env = ⟨st2, some ev, .afterFenCrash⟩) ∧
    (∀ a, env.afterFen = some a → env.afterFen ≠ env.beforeFen →
      detectTurnFromFen a = st2.autoplayColor →
      iterPostMove st2 ev env = ⟨st2, some ev, .rejectedNoFlip⟩) ∧
    (∀ a, env.afterFen = some a → env.afterFen ≠ env.beforeFen →
      detectTurnFromFen a ≠ st2.autoplayColor →
      iterPostMove st2 ev env =
        ⟨{ st2 with moveHistory := st2.moveHistory ++ [ev.bestMove], lastQueryFen := none },
          some ev, .played⟩) := by
  unfold iterPostMove
  refine ⟨fun h1 => ?_, fun h1 h2 => ?_, fun a h1 h2 h3 => ?_, fun a h1 h2 h3 => ?_⟩ <;>
    simp_all

theorem sync_lastQuery_none (env : SyncEnv) (st : ServerState) (h : st.lastQueryFen = none) :
    (syncPositionInternal env st).2.lastQueryFen = none := by
  rcases sync_lastQuery_cases env st with h2 | h2
  · rw [h2, h]
  · exact h2

theorem turnPhase_lastQuery_cases (st1 : ServerState) (env : Env) :
    (iterTurnPhase st1 env).st.lastQueryFen = st1.lastQueryFen ∨
    (iterTurnPhase st1 env).st.lastQueryFen = none ∨
    (iterTurnPhase st1 env).st.lastQueryFen = strOpt env.queryFen := by
  suffices hgen : ∀ r, iterTurnPhase st1 env = r →
      r.st.lastQueryFen = st1.lastQueryFen ∨ r.st.lastQueryFen = none ∨
      r.st.lastQueryFen = strOpt env.queryFen from hgen _ rfl
  intro r h
  simp only [iterTurnPhase] at h
  repeat (any_goals (split at h))
  any_goals (unfold iterPostMove at h)
  repeat (any_goals (split at h))
  all_goals (subst h)
  all_goals (try (left; rfl))
  all_goals (try (right; left; rfl))
  all_goals (right; right; exact Eq.symm (by assumption))

theorem iterCore_lastQuery_cases (st : ServerState) (env : Env) :
    (iterCore st env).st.lastQueryFen = st.lastQueryFen ∨
    (iterCore st env).st.lastQueryFen = none ∨
    (iterCore st env).st.lastQueryFen = strOpt env.queryFen := by
  simp only [iterCore]
  split
  · left; rfl
  · split
    · split
      · rcases sync_lastQuery_cases env.sync1 st with h | h
        · left; exact h
        · right; left; exact h
      · split
        · rcases turnPhase_lastQuery_cases (syncPositionInternal env.sync1 st).2 env with h | h | h
          · rcases sync_lastQuery_cases env.sync1 st with h2 | h2
            · left; rw [h]; exact h2
            · right; left; rw [h]; exact h2
          · right; left; exact h
          · right; right; exact h
        · right; left
          exact sync_lastQuery_none env.sync2 _ rfl
    · rcases turnPhase_lastQuery_cases (syncPositionInternal env.sync1 st).2 env with h | h | h
      · rcases sync_lastQuery_cases env.sync1 st with h2 | h2
        · left; rw [h]; exact h2
        · right; left; rw [h]; exact h2
      · right; left; exact h
      · right; right; exact h

theorem loop_lastQuery_cases (st : ServerState) (env : Env) :
    (autoplayLoop st env).st.lastQueryFen = st.lastQueryFen ∨
    (autoplayLoop st env).st.lastQueryFen = none ∨
    (autoplayLoop st env).st.lastQueryFen = strOpt env.queryFen := by
  by_cases hb : st.autoplayBusy = true
  · left
    rw [autoplayLoop, if_pos hb]
  · rw [autoplayLoop, if_neg hb]
    simpa using iterCore_lastQuery_cases { st with autoplayBusy := true } env

/-- Claim C1 (amended): whenever the turn re-derived from expectedPosition
(replaying moveHistory from startingPosition via the oracle, on the state
left by the reconciler) disagrees with the configured playingColor, the
autoplay iteration issues no engine search; lastQueriedPosition, however, is
not necessarily unchanged: it is either kept, cleared by the reconciler, or
already set to the fetched snapshot, because the snapshot is marked as
queried before the replay-derived turn gate runs. -/
theorem autoplay_gate_blocks_wrong_side (st : ServerState) (env : Env)
    (hgate : derivedTurnColor (afterSyncState st env) ≠ some st.autoplayColor) :
    (autoplayLoop st env).searched = none ∧
    ((autoplayLoop st env).st.lastQueryFen = st.lastQueryFen ∨
     (autoplayLoop st env).st.lastQueryFen = none ∨
     (autoplayLoop st env).st.lastQueryFen = strOpt env.queryFen) := by
  refine ⟨?_, loop_lastQuery_cases st env⟩
  cases hs : (autoplayLoop st env).searched with
  | none => rfl
  | some ev =>
    exfalso
    obtain ⟨hb, hsearched, _⟩ := autoplayLoop_searched_core st env ev hs
    obtain ⟨_, _, hturn, _, _⟩ := turnPhase_inv _ env ev hsearched
    apply hgate
    rw [hturn]
    have hcol := (sync_preserves_fields env.sync1 { st with autoplayBusy := true }).2.2.2.1
    rw [show (afterSyncState st env).autoplayColor = st.autoplayColor from hcol]

theorem autoplay_gate_blocks_wrong_side_witness :
    derivedTurnColor (afterSyncState gateState gateEnv) ≠ some gateState.autoplayColor ∧
    (autoplayLoop gateState gateEnv).searched = none :=
  ⟨by decide, (autoplay_gate_blocks_wrong_side gateState gateEnv (by decide)).1⟩

/-- Claim C1 counterexample: a state whose replay-derived turn (white)
disagrees with playingColor (black) while the external snapshot lies that it
is black to move: the iteration issues no search, but lastQueriedPosition is
updated from none to the fetched snapshot, so the claimed frame condition
fails. -/
theorem autoplay_gate_updates_lastQuery :
    derivedTurnColor (afterSyncState gateState gateEnv) = some Color.white ∧
    gateState.autoplayColor = Color.black ∧
    (autoplayLoop gateState gateEnv).searched = none ∧
    gateState.lastQueryFen = none ∧
    (autoplayLoop gateState gateEnv).st.lastQueryFen = some lieBlackStartFen := by
  exact ⟨by decide, rfl, by decide, rfl, by decide⟩

/-- Claim C5: after the engine move is executed externally, the move is
appended to moveHistory and lastQueriedPosition cleared exactly when the
re-fetched snapshot differs from the pre-move snapshot and shows the turn
flipped away from playingColor; an unchanged snapshot, or a changed one
without the turn flip, is a rejection: history is not appended,
lastQueriedPosition stays set to the queried snapshot, and the
corresponding rejection outcome is surfaced. -/
theorem autoplay_post_move_verification (st : ServerState) (env : Env) (ev : SearchEv)
    (hs : (autoplayLoop st env).searched = some ev) (hexec : env.execOk = true) :
    ((autoplayLoop st env).outcome = .played ↔
      (env.afterFen ≠ env.beforeFen ∧
        ∃ a, env.afterFen = some a ∧ detectTurnFromFen a ≠ st.autoplayColor)) ∧
    ((autoplayLoop st env).outcome = .played →
      (autoplayLoop st env).st.moveHistory =
        (afterSyncState st env).moveHistory ++ [ev.bestMove] ∧
      (autoplayLoop st env).st.lastQueryFen = none) ∧
    (env.afterFen = env.beforeFen →
      (autoplayLoop st env).outcome = .rejectedUnchanged ∧
      (autoplayLoop st env).st.moveHistory = (afterSyncState st env).moveHistory ∧
      (autoplayLoop st env).st.lastQueryFen = some ev.snapshot) ∧
    (∀ a, env.afterFen = some a → env.afterFen ≠ env.beforeFen →
      detectTurnFromFen a = st.autoplayColor →
      (autoplayLoop st env).outcome = .rejectedNoFlip ∧
      (autoplayLoop st env).st.moveHistory = (afterSyncState st env).moveHistory ∧
      (autoplayLoop st env).st.lastQueryFen = some ev.snapshot) := by
  obtain ⟨hb, hsearched, hloop⟩ := autoplayLoop_searched_core st env ev hs
  obtain ⟨_, _, _, _, hpost⟩ := turnPhase_inv _ env ev hsearched
  rw [hpost] at hloop
  have hcol : ({ afterSyncState st env with
      lastQueryFen := some ev.snapshot } : ServerState).autoplayColor = st.autoplayColor :=
    (sync_preserves_fields env.sync1 { st with autoplayBusy := true }).2.2.2.1
  obtain ⟨k1, k2, k3, k4⟩ :=
    iterPostMove_cases { afterSyncState st env with lastQueryFen := some ev.snapshot } ev env hexec
  refine ⟨⟨?_, ?_⟩, ?_, ?_, ?_⟩
  · intro hp
    by_cases h1 : env.afterFen = env.beforeFen
    · rw [k1 h1] at hloop
      rw [hloop] at hp
      simp at hp
    · cases ha : env.afterFen with
      | none =>
        rw [k2 h1 ha] at hloop
        rw [hloop] at hp
        simp at hp
      | some a =>
        by_cases h3 : detectTurnFromFen a = st.autoplayColor
        · rw [k3 a ha h1 (by rw [hcol]; exact h3)] at hloop
          rw [hloop] at hp
          simp at hp
        · exact ⟨ha ▸ h1, a, rfl, h3⟩
  · rintro ⟨h1, a, ha, h3⟩
    rw [k4 a ha h1 (by rw [hcol]; exact h3)] at hloop
    rw [hloop]
  · intro hp
    by_cases h1 : env.afterFen = env.beforeFen
    · rw [k1 h1] at hloop
      rw [hloop] at hp
      simp at hp
    · cases ha : env.afterFen with
      | none =>
        rw [k2 h1 ha] at hloop
        rw [hloop] at hp
        simp at hp
      | some a =>
        by_cases h3 : detectTurnFromFen a = st.autoplayColor
        · rw [k3 a ha h1 (by rw [hcol]; exact h3)] at hloop
          rw [hloop] at hp
          simp at hp
        · rw [k4 a ha h1 (by rw [hcol]; exact h3)] at hloop
          rw [hloop]
          simp
  · intro h1
    rw [k1 h1] at hloop
    rw [hloop]
    simp
  · intro a ha h1 h3
    rw [k3 a ha h1 (by rw [hcol]; exact h3)] at hloop
    rw [hloop]
    simp

/-- Claim C6 (amended): whenever the autoplay iteration issues an engine
search, the snapshot fetched for the query differs from the
lastQueriedPosition held after reconciliation, so a repeat query against an
unchanged snapshot is suppressed as long as the reconciler has not cleared
or replaced lastQueriedPosition in between; the counterexample shows that a
reconciler move-list adoption between iterations can re-enable a second
search on the very same unchanged snapshot. -/
theorem autoplay_duplicate_query_suppressed (st : ServerState) (env : Env) (ev : SearchEv)
    (hs : (autoplayLoop st env).searched = some ev) :
    strOpt env.queryFen = some ev.snapshot ∧
    (afterSyncState st env).lastQueryFen ≠ some ev.snapshot := by
  obtain ⟨_, hsearched, _⟩ := autoplayLoop_searched_core st env ev hs
  obtain ⟨hne, hq, _, _, _⟩ := turnPhase_inv _ env ev hsearched
  exact ⟨hq, hne⟩

theorem autoplay_duplicate_query_suppressed_witness :
    (autoplayLoop baseState playedEnv).searched =
      some ⟨"startpos", [], startFenStr, "e2e4"⟩ ∧
    strOpt playedEnv.queryFen = some startFenStr ∧
    (afterSyncState baseState playedEnv).lastQueryFen ≠ some startFenStr :=
  ⟨by decide,
    (autoplay_duplicate_query_suppressed baseState playedEnv
      ⟨"startpos", [], startFenStr, "e2e4"⟩ (by decide)).1,
    (autoplay_duplicate_query_suppressed baseState playedEnv
      ⟨"startpos", [], startFenStr, "e2e4"⟩ (by decide)).2⟩

/-- Claim C6 counterexample: against a board frozen at the position after
1. a3 a6 (every snapshot the same string), the first iteration records a
custom start and issues a search whose move is rejected, leaving
lastQueriedPosition set; in the next iteration the reconciler adopts an
extracted move list and clears lastQueriedPosition, and the engine is
queried again on the very same unchanged snapshot: the engine is queried
twice in succession with the position unchanged. -/
theorem autoplay_double_query_same_snapshot :
    (autoplayLoop baseState frozenEnv1).searched =
      some ⟨fenAfterA3a6, [], fenAfterA3a6, "g1f3"⟩ ∧
    (autoplayLoop (autoplayLoop baseState frozenEnv1).st frozenEnv2).searched =
      some ⟨fenAfterA3a6, ["b1c3", "b8c6"], fenAfterA3a6, "g1f3"⟩ ∧
    frozenEnv1.queryFen = some fenAfterA3a6 ∧
    frozenEnv2.queryFen = some fenAfterA3a6 ∧
    frozenEnv1.afterFen = frozenEnv1.beforeFen := by
  exact ⟨by decide, by decide, rfl, rfl, rfl⟩

theorem autoplay_post_move_verification_witness :
    (autoplayLoop baseState playedEnv).searched =
      some ⟨"startpos", [], startFenStr, "e2e4"⟩ ∧
    playedEnv.execOk = true ∧
    (((autoplayLoop baseState playedEnv).outcome = .played ↔
      (playedEnv.afterFen ≠ playedEnv.beforeFen ∧
        ∃ a, playedEnv.afterFen = some a ∧ detectTurnFromFen a ≠ baseState.autoplayColor)) ∧
    ((autoplayLoop baseState playedEnv).outcome = .played →
      (autoplayLoop baseState playedEnv).st.moveHistory =
        (afterSyncState baseState playedEnv).moveHistory ++ ["e2e4"] ∧
      (autoplayLoop baseState playedEnv).st.lastQueryFen = none) ∧
    (playedEnv.afterFen = playedEnv.beforeFen →
      (autoplayLoop baseState playedEnv).outcome = .rejectedUnchanged ∧
      (autoplayLoop baseState playedEnv).st.moveHistory =
        (afterSyncState baseState playedEnv).moveHistory ∧
      (autoplayLoop baseState playedEnv).st.lastQueryFen = some startFenStr) ∧
    (∀ a, playedEnv.afterFen = some a → playedEnv.afterFen ≠ playedEnv.beforeFen →
      detectTurnFromFen a = baseState.autoplayColor →
      (autoplayLoop baseState playedEnv).outcome = .rejectedNoFlip ∧
      (autoplayLoop baseState playedEnv).st.moveHistory =
        (afterSyncState baseState playedEnv).moveHistory ∧
      (autoplayLoop baseState playedEnv).st.lastQueryFen = some startFenStr)) :=
  ⟨by decide, rfl,
    autoplay_post_move_verification baseState playedEnv
      ⟨"startpos", [], startFenStr, "e2e4"⟩ (by decide) rfl⟩

theorem syncFreshFallback_history (f : String) (st : ServerState)
    (hh : st.moveHistory = []) : (syncFreshFallback f st).2.moveHistory = [] := by
  unfold syncFreshFallback
  repeat (any_goals split)
  all_goals simp [hh]

theorem validMovesOf_of_replayStrict (ms : List String) :
    ∀ (p q : Pos), replayStrict p ms = some q → validMovesOf p ms = (ms, q) := by
  induction ms with
  | nil =>
    intro p q h
    obtain rfl : p = q := Option.some.inj h
    rfl
  | cons m rest ih =>
    intro p q h
    unfold replayStrict at h
    unfold validMovesOf
    cases ha : applyUci p m with
    | none =>
      rw [ha] at h
      exact absurd h (by simp)
    | some p2 =>
      rw [ha] at h
      replace h : replayStrict p2 rest = some q := h
      have hg : validMovesOf p2 rest = (rest, q) := ih p2 q h
      show (m :: (validMovesOf p2 rest).1, (validMovesOf p2 rest).2) = (m :: rest, q)
      rw [hg]

/-- Claim C4 (amended): when moveHistory is empty and an external move list
is obtained, the reconciler adopts the longest prefix of the list that
validates in sequence from the standard start: the whole list when every
move validates, a proper non-empty prefix when a later move is illegal, and
only when the very first move is illegal is the adoption path abandoned and
the next recovery strategy (start/custom-position detection) used, leaving
moveHistory empty. -/
theorem sync_adoption_longest_valid (st : ServerState) (env : SyncEnv) (ms : List String)
    (f : String) (hc : st.connected = true) (hh : st.moveHistory = [])
    (hb : strOpt env.boardFen = some f) (he : env.extract1 = some ms) (hne : ms ≠ []) :
    ((validMovesOf initPos ms).1 ≠ [] →
      syncPositionInternal env st =
        (.adopted (validMovesOf initPos ms).1,
          { st with moveHistory := (validMovesOf initPos ms).1, chessPos := (validMovesOf initPos ms).2, lastQueryFen := none })) ∧
    ((validMovesOf initPos ms).1 = [] →
      syncPositionInternal env st = syncFreshFallback f st ∧
      (syncPositionInternal env st).2.moveHistory = []) ∧
    (∀ q, replayStrict initPos ms = some q →
      (syncPositionInternal env st).2.moveHistory = ms) := by
  have hmain : syncPositionInternal env st = syncFresh env f st := by
    unfold syncPositionInternal
    rw [hb, hh]
    simp [hc]
  refine ⟨fun hvm => ?_, fun hvm => ?_, fun q hq => ?_⟩
  · rw [hmain]
    unfold syncFresh
    rw [he]
    simp [hne, hvm]
  · constructor
    · rw [hmain]
      unfold syncFresh
      rw [he]
      simp [hne, hvm]
    · rw [hmain]
      unfold syncFresh
      rw [he]
      simp only [hne, hvm, if_false, ite_false, if_pos rfl]
      exact syncFreshFallback_history f st hh
  · have hall : validMovesOf initPos ms = (ms, q) := validMovesOf_of_replayStrict ms initPos q hq
    rw [hmain]
    unfold syncFresh
    rw [he]
    simp [hne, hall]

theorem sync_adoption_longest_valid_witness :
    baseState.connected = true ∧ baseState.moveHistory = [] ∧
    strOpt (some startFenStr) = some startFenStr ∧ (["e2e4", "e2e4"] : List String) ≠ [] ∧
    ((validMovesOf initPos ["e2e4", "e2e4"]).1 ≠ [] →
      syncPositionInternal ⟨some startFenStr, some ["e2e4", "e2e4"], none⟩ baseState =
        (.adopted (validMovesOf initPos ["e2e4", "e2e4"]).1,
          { baseState with moveHistory := (validMovesOf initPos ["e2e4", "e2e4"]).1, chessPos := (validMovesOf initPos ["e2e4", "e2e4"]).2, lastQueryFen := none })) :=
  ⟨rfl, rfl, by decide, by decide,
    (sync_adoption_longest_valid baseState ⟨some startFenStr, some ["e2e4", "e2e4"], none⟩
      ["e2e4", "e2e4"] startFenStr rfl rfl (by decide) rfl (by decide)).1⟩

/-- Claim C4 counterexample: the extracted list e2e4, e2e4 is not fully
valid (its second move is illegal after the first), yet with empty
moveHistory the reconciler adopts the one-move prefix e2e4 instead of
aborting the adoption: the list is adopted as a partial prefix. -/
theorem sync_adopts_partial_list :
    replayStrict initPos ["e2e4", "e2e4"] = none ∧
    (syncPositionInternal ⟨some startFenStr, some ["e2e4", "e2e4"], none⟩ baseState).1 =
      .adopted ["e2e4"] ∧
    (syncPositionInternal ⟨some startFenStr, some ["e2e4", "e2e4"], none⟩
      baseState).2.moveHistory = ["e2e4"] := by
  exact ⟨by decide, by decide, by decide⟩

/-- Claim C3: with non-empty moveHistory and a snapshot whose placement
differs from the expected position, the reconciler appends the first
oracle-legal move, in the oracle's enumeration order, whose resulting
placement equals the snapshot's placement; only the placement field of the
snapshot enters the comparison; concretely, from the standard start with
moveHistory e2e4 and a snapshot showing the placement after e2e4 e7e5, the
move e7e5 is inferred and moveHistory becomes e2e4, e7e5, and the same move
is inferred when the snapshot's turn, castling, en-passant and clock
metadata are altered. -/
theorem sync_single_ply_inference :
    (∀ (st : ServerState) (env : SyncEnv) (f : String) (sp : Pos) (mv : Move) (q : Pos),
      st.connected = true →
      strOpt env.boardFen = some f →
      st.moveHistory ≠ [] →
      startPosOf st = some sp →
      fenField0 f ≠ placementFen (replayLoose sp st.moveHistory).board →
      (legalMoves (replayLoose sp st.moveHistory)).find?
          (fun m => placementFen (applyMoveFull (replayLoose sp st.moveHistory) m).board =
            fenField0 f) = some mv →
      parseFen f = some q →
      syncPositionInternal env st =
        (.detected (uciOfMove mv),
          { st with moveHistory := st.moveHistory ++ [uciOfMove mv], chessPos := q, lastQueryFen := none })) ∧
    ((syncPositionInternal c3Env c3State).1 = .detected "e7e5" ∧
      (syncPositionInternal c3Env c3State).2.moveHistory = ["e2e4", "e7e5"]) ∧
    (syncPositionInternal ⟨some fenAfterE2e4E7e5Alt, none, none⟩ c3State).1 =
      .detected "e7e5" := by
  refine ⟨?_, ⟨by decide, by decide⟩, by decide⟩
  intro st env f sp mv q hc hb hh hsp hdiff hfind hq
  have hmain : syncPositionInternal env st = syncStale env f st := by
    unfold syncPositionInternal
    rw [hb]
    simp [hc, hh]
  rw [hmain]
  unfold syncStale
  simp only [hsp]
  rw [if_neg hdiff]
  unfold findDetectedMove
  rw [hfind]
  simp only [Option.map_some', hq]

theorem sync_single_ply_inference_witness :
    c3State.connected = true ∧ c3State.moveHistory ≠ [] ∧
    startPosOf c3State = some initPos ∧
    parseFen fenAfterE2e4E7e5 = some posE4E5 ∧
    uciOfMove moveE7e5 = "e7e5" ∧
    syncPositionInternal c3Env c3State =
      (.detected (uciOfMove moveE7e5),
        { c3State with moveHistory := c3State.moveHistory ++ [uciOfMove moveE7e5], chessPos := posE4E5, lastQueryFen := none }) :=
  ⟨rfl, by decide, by decide, by decide, by decide,
    sync_single_ply_inference.1 c3State c3Env fenAfterE2e4E7e5 initPos moveE7e5 posE4E5
      rfl (by decide) (by decide) (by decide) (by decide) (by decide) (by decide)⟩
